import Mathlib

/-!
Verification development for the valr-loan-monitor repository.

Shallow embedding of the repayment core:
* `FriendsFamilyLoanManager` (loan loading/validation, due-payment computation),
* `RepaymentManager` (plan building, cycle execution, per-action isolation),
* the PII sanitization helpers (`maskString` and friends).

Modelling conventions:
* JS numbers are embedded as `ℚ` (exact arithmetic; the source uses IEEE doubles,
  but every claim here is about control flow and exact value propagation).
* Timestamps are `ℚ` milliseconds since epoch; `new Date(...)` subtraction and the
  `/ (1000*60*60*24)` day conversions are carried over literally.
* Fallible collaborators (exchange balance reads, SQLite writes, trades, transfers)
  are passed in as `Except String`-valued inputs; a thrown JS error is `.error msg`.
* JS `Array.prototype.sort` (a stable comparison sort) is embedded as
  `List.insertionSort`, which is stable and sorts by the comparator's relation.
* Strings handled character-wise (masking) are embedded as `List Char`.
-/

/-! ## Data model (friends-family-loans.ts, repayment-manager.ts) -/

/-- Recipient addressing kinds accepted by the transfer service. -/
inductive RecipientType where
  | valrAccountId
  | email
  | cellNumber
deriving DecidableEq

/-- `FFRecipient` from friends-family-loans.ts. -/
structure FFRecipient where
  type : RecipientType
  value : String
deriving DecidableEq

/-- `FriendsAndFamilyLoan` from friends-family-loans.ts (a validated, loaded loan).
`startDate` is the parsed timestamp in milliseconds. -/
structure FriendsAndFamilyLoan where
  id : String
  name : String
  principal : ℚ
  currency : String
  recipient : FFRecipient
  interestRate : ℚ
  startDate : ℚ
  cryptoPreference : String
  active : Bool
  notes : Option String := none
deriving DecidableEq

/-- Payment kind tag of `FFLoanPayment`. -/
inductive PaymentType where
  | INTEREST
  | PRINCIPAL
deriving DecidableEq

/-- `FFLoanPayment` from friends-family-loans.ts. -/
structure FFLoanPayment where
  loanId : String
  paymentDate : ℚ
  amountZAR : ℚ
  cryptoCurrency : String
  cryptoAmount : ℚ
  transferId : Option String := none
  type : PaymentType
deriving DecidableEq

/-- The two repayment channels of `RepaymentAction.type`. -/
inductive ActionType where
  | FRIENDS_FAMILY
  | VALR_LOAN
deriving DecidableEq

/-- `RepaymentAction` from repayment-manager.ts. -/
structure RepaymentAction where
  priority : ℕ
  type : ActionType
  loanIdentifier : String
  currency : String
  amountNeeded : ℚ
  amountInZAR : ℚ
  apr : Option ℚ := none
  recipientType : Option RecipientType := none
  recipientValue : Option String := none
  recipientName : Option String := none
deriving DecidableEq

/-- Structured rendering of the planner's `skippedReason` strings: the source
interpolates the amounts into a message; we keep the amounts. -/
inductive SkipReason where
  | insufficientAfterReserve (available reserve : ℚ)
  | insufficientForFF (needed usable : ℚ)
deriving DecidableEq

/-- `RepaymentPlan` from repayment-manager.ts. -/
structure RepaymentPlan where
  totalZARAvailable : ℚ
  totalZARNeeded : ℚ
  canExecute : Bool
  payments : List RepaymentAction
  skippedReason : Option SkipReason := none
deriving DecidableEq

/-- The `breakdown` field of `ExecutionResult`. -/
structure Breakdown where
  friendsFamilyPayments : ℕ
  valrLoanPayments : ℕ
deriving DecidableEq

/-- `ExecutionResult` from repayment-manager.ts (timestamp/dryRun fields elided:
no claim mentions them). -/
structure ExecutionResult where
  success : Bool
  actionsPlanned : ℕ
  actionsExecuted : ℕ
  errors : List String
  totalZARSpent : ℚ
  breakdown : Breakdown
deriving DecidableEq

/-- `RepaymentConfig` from repayment-manager.ts (subaccount ids elided). -/
structure RepaymentConfig where
  minimumZARReserve : ℚ
  dryRun : Bool := true
deriving DecidableEq

/-! ## FriendsFamilyLoanManager: due payments -/

/-- The per-loan view of the SQLite ledger used by `getPaymentsDueThisMonth`:
`lastPaymentDate loanId` models `db.getFFLastPaymentDate` (most recent payment
timestamp, if any) and `paymentsThisMonth loanId` models
`db.getFFPaymentsThisMonth` (timestamps of this-calendar-month payments). -/
structure DbView where
  lastPaymentDate : String → Option ℚ
  paymentsThisMonth : String → List ℚ

/-- Milliseconds per day, the `1000 * 60 * 60 * 24` of the source. -/
def msPerDay : ℚ := 1000 * 60 * 60 * 24

/-- `calculateMonthlyInterest`: simple interest `(principal * rate) / 12`. -/
def calculateMonthlyInterest (loan : FriendsAndFamilyLoan) : ℚ :=
  loan.principal * loan.interestRate / 12

/-- The due test of `getPaymentsDueThisMonth`, one loan at a time. -/
def isDue (db : DbView) (now : ℚ) (loan : FriendsAndFamilyLoan) : Bool :=
  match db.lastPaymentDate loan.id with
  | none => decide ((now - loan.startDate) / msPerDay ≥ 30)
  | some lastPayment =>
    if (db.paymentsThisMonth loan.id).length = 0 then true
    else decide ((now - lastPayment) / msPerDay ≥ 30)

/-- The pending-payment record pushed for a due loan. -/
def duePayment (now : ℚ) (loan : FriendsAndFamilyLoan) : FFLoanPayment :=
  { loanId := loan.id
    paymentDate := now
    amountZAR := calculateMonthlyInterest loan
    cryptoCurrency := loan.cryptoPreference
    cryptoAmount := 0
    type := PaymentType.INTEREST }

/-- `getPaymentsDueThisMonth` from friends-family-loans.ts: one pending payment
per due loan, in registry iteration order. -/
def getPaymentsDueThisMonth (loans : List FriendsAndFamilyLoan) (db : DbView) (now : ℚ) :
    List FFLoanPayment :=
  loans.filterMap fun loan => if isDue db now loan then some (duePayment now loan) else none

/-- `getLoan` from friends-family-loans.ts. -/
def getLoan (loans : List FriendsAndFamilyLoan) (loanId : String) :
    Option FriendsAndFamilyLoan :=
  loans.find? fun l => l.id == loanId

/-! ## RepaymentManager: plan building -/

/-- `getAvailableZAR`: returns the fetched balance, or `0` when the read throws. -/
def getAvailableZAR (balanceResult : Except String ℚ) : ℚ :=
  match balanceResult with
  | .ok v => v
  | .error _ => 0

/-- A loan position of the metrics snapshot (only the currency is consumed). -/
structure LoanPosition where
  currency : String
deriving DecidableEq

/-- The `loanMonitor.getMetrics()` snapshot consumed by the planner. -/
structure LoanMetrics where
  loans : List LoanPosition
  effectiveAPRByLoan : List (String × ℚ)
deriving DecidableEq

/-- `aprs[loan.currency] || 0`: APR of a currency, defaulting to `0` when absent. -/
def aprOf (metrics : LoanMetrics) (c : String) : ℚ :=
  (metrics.effectiveAPRByLoan.lookup c).getD 0

/-- Priority order used by `payments.sort((a, b) => a.priority - b.priority)`. -/
def prioLe (a b : RepaymentAction) : Prop := a.priority ≤ b.priority

instance : DecidableRel prioLe := fun a b => inferInstanceAs (Decidable (a.priority ≤ b.priority))

instance : IsTotal RepaymentAction prioLe := ⟨fun a b => Nat.le_total a.priority b.priority⟩

instance : IsTrans RepaymentAction prioLe := ⟨fun _ _ _ h₁ h₂ => le_trans h₁ h₂⟩

/-- Descending-APR order used by `sort((a, b) => b.apr - a.apr)`. -/
def aprGe (a b : String × ℚ) : Prop := b.2 ≤ a.2

instance : DecidableRel aprGe := fun a b => inferInstanceAs (Decidable (b.2 ≤ a.2))

instance : IsTotal (String × ℚ) aprGe := ⟨fun a b => le_total b.2 a.2⟩

instance : IsTrans (String × ℚ) aprGe := ⟨fun _ _ _ h₁ h₂ => le_trans h₂ h₁⟩

/-- The priority-1 action built from one due payment (`actions.push` in step 2 of
`buildRepaymentPlan`); `none` when `getLoan` misses (`if (!loan) continue`). -/
def mkFFAction (loans : List FriendsAndFamilyLoan) (p : FFLoanPayment) :
    Option RepaymentAction :=
  (getLoan loans p.loanId).map fun loan =>
    { priority := 1
      type := ActionType.FRIENDS_FAMILY
      loanIdentifier := loan.id
      currency := p.cryptoCurrency
      amountNeeded := p.amountZAR
      amountInZAR := p.amountZAR
      recipientType := some loan.recipient.type
      recipientValue := some loan.recipient.value
      recipientName := some loan.name }

/-- The full priority-1 action list of a planning cycle, in registry order. -/
def ffActionsList (loans : List FriendsAndFamilyLoan) (db : DbView) (now : ℚ) :
    List RepaymentAction :=
  (getPaymentsDueThisMonth loans db now).filterMap (mkFFAction loans)

/-- `buildRepaymentPlan` from repayment-manager.ts. Inputs: the config, the
outcome of the ZAR balance read, the loaded loans, the ledger view, the clock,
and the loan-metrics snapshot. -/
def buildRepaymentPlan (cfg : RepaymentConfig) (balanceResult : Except String ℚ)
    (loans : List FriendsAndFamilyLoan) (db : DbView) (now : ℚ)
    (metrics : LoanMetrics) : RepaymentPlan :=
  let availableZAR := getAvailableZAR balanceResult
  let usableZAR := availableZAR - cfg.minimumZARReserve
  if usableZAR ≤ 0 then
    { totalZARAvailable := availableZAR
      totalZARNeeded := 0
      canExecute := false
      payments := []
      skippedReason := some (SkipReason.insufficientAfterReserve availableZAR cfg.minimumZARReserve) }
  else
    let actions := ffActionsList loans db now
    let ffTotalNeeded := actions.foldl (fun s a => s + a.amountInZAR) 0
    if usableZAR < ffTotalNeeded then
      { totalZARAvailable := availableZAR
        totalZARNeeded := ffTotalNeeded
        canExecute := false
        payments := actions
        skippedReason := some (SkipReason.insufficientForFF ffTotalNeeded usableZAR) }
    else
      let remainingZAR := usableZAR - ffTotalNeeded
      let actions2 :=
        if 0 < remainingZAR then
          let sortedLoans :=
            List.insertionSort aprGe (metrics.loans.map fun l => (l.currency, aprOf metrics l.currency))
          match sortedLoans with
          | [] => actions
          | best :: _ =>
            actions ++
              [{ priority := 2
                 type := ActionType.VALR_LOAN
                 loanIdentifier := best.1
                 currency := best.1
                 amountNeeded := 0
                 amountInZAR := remainingZAR
                 apr := some best.2 }]
        else actions
      let totalNeeded := ffTotalNeeded + (if 0 < remainingZAR then remainingZAR else 0)
      { totalZARAvailable := availableZAR
        totalZARNeeded := totalNeeded
        canExecute := true
        payments := List.insertionSort prioLe actions2 }

/-! ## RepaymentManager: plan execution -/

/-- `TradeResult` from trading-service.ts. -/
structure TradeResult where
  success : Bool
  cryptoReceived : ℚ
  zarSpent : ℚ
  price : ℚ
  orderId : Option String := none
  tradeError : Option String := none
deriving DecidableEq

/-- `TransferResult` from transfer-service.ts. -/
structure TransferResult where
  success : Bool
  transferId : Option String := none
  transferError : Option String := none
deriving DecidableEq

/-- The external outcomes one action can observe: its trade, its transfer, and
the ledger write recording the payment (the latter's `.error` models a throw). -/
structure ActionEnv where
  trade : TradeResult
  transfer : TransferResult
  recordWrite : Except String Unit

/-- `payFriendsFamily`: look the loan up, buy, transfer, record; the first
failing step throws. -/
def payFriendsFamily (loans : List FriendsAndFamilyLoan) (a : RepaymentAction)
    (ae : ActionEnv) : Except String Unit :=
  match getLoan loans a.loanIdentifier with
  | none => .error ("Loan not found: " ++ a.loanIdentifier)
  | some _ =>
    if ae.trade.success = false then
      .error ("Trade failed: " ++ ae.trade.tradeError.getD "undefined")
    else if ae.transfer.success = false then
      .error ("Transfer failed: " ++ ae.transfer.transferError.getD "undefined")
    else ae.recordWrite

/-- `payVALRLoan`: buy, transfer to the loan subaccount, record. -/
def payVALRLoan (a : RepaymentAction) (ae : ActionEnv) : Except String Unit :=
  if ae.trade.success = false then
    .error ("Trade failed: " ++ ae.trade.tradeError.getD "undefined")
  else if ae.transfer.success = false then
    .error ("Transfer failed: " ++ ae.transfer.transferError.getD "undefined")
  else ae.recordWrite

/-- Dispatch of the `if (action.type === 'FRIENDS_FAMILY')` branch. -/
def runAction (loans : List FriendsAndFamilyLoan) (a : RepaymentAction)
    (ae : ActionEnv) : Except String Unit :=
  match a.type with
  | ActionType.FRIENDS_FAMILY => payFriendsFamily loans a ae
  | ActionType.VALR_LOAN => payVALRLoan a ae

/-- Boolean success test on `Except`. -/
def isOkE {ε α : Type} (x : Except ε α) : Bool :=
  match x with
  | .ok _ => true
  | .error _ => false

/-- The fresh `result` record at the top of `executeRepaymentPlan`. -/
def initResult (planned : ℕ) : ExecutionResult :=
  { success := true
    actionsPlanned := planned
    actionsExecuted := 0
    errors := []
    totalZARSpent := 0
    breakdown := { friendsFamilyPayments := 0, valrLoanPayments := 0 } }

/-- Breakdown bump performed after a successful action. -/
def bumpBreakdown (t : ActionType) (b : Breakdown) : Breakdown :=
  match t with
  | ActionType.FRIENDS_FAMILY => { b with friendsFamilyPayments := b.friendsFamilyPayments + 1 }
  | ActionType.VALR_LOAN => { b with valrLoanPayments := b.valrLoanPayments + 1 }

/-- The `for (const action of plan.payments)` loop of `executeRepaymentPlan`:
success bumps counters and spend; a thrown error flips `success`, appends
`loanIdentifier: msg` to `errors`, and the loop continues. `i` indexes the
actions so each can see its own external outcome. -/
def execLoop (loans : List FriendsAndFamilyLoan) (aenv : ℕ → ActionEnv) :
    List RepaymentAction → ℕ → ExecutionResult → ExecutionResult
  | [], _, acc => acc
  | a :: rest, i, acc =>
    match runAction loans a (aenv i) with
    | .ok _ =>
      execLoop loans aenv rest (i + 1)
        { acc with
          breakdown := bumpBreakdown a.type acc.breakdown
          actionsExecuted := acc.actionsExecuted + 1
          totalZARSpent := acc.totalZARSpent + a.amountInZAR }
    | .error msg =>
      execLoop loans aenv rest (i + 1)
        { acc with
          success := false
          errors := acc.errors ++ [a.loanIdentifier ++ ": " ++ msg] }

/-- `executeRepaymentPlan`'s pure computation (its ledger writes are modelled in
`executeRepaymentCycle`, preserving the source's write order). -/
def executeRepaymentPlan (loans : List FriendsAndFamilyLoan) (aenv : ℕ → ActionEnv)
    (plan : RepaymentPlan) : ExecutionResult :=
  execLoop loans aenv plan.payments 0 (initResult plan.payments.length)

/-- The indexed action outcomes a run of the loop observes, in order. -/
def outcomesFrom (loans : List FriendsAndFamilyLoan) (aenv : ℕ → ActionEnv) :
    ℕ → List RepaymentAction → List (RepaymentAction × Except String Unit)
  | _, [] => []
  | i, a :: rest => (a, runAction loans a (aenv i)) :: outcomesFrom loans aenv (i + 1) rest

/-- The error string recorded for a failed action, `none` for a successful one. -/
def errMsg (x : RepaymentAction × Except String Unit) : Option String :=
  match x.2 with
  | .error m => some (x.1.loanIdentifier ++ ": " ++ m)
  | .ok _ => none

/-! ## RepaymentManager: the cycle -/

/-- Rendering of `plan.skippedReason || 'Skipped'` stored in the skip record's
error list (numeric interpolation of the source message kept via `toString`). -/
def skipReasonText (r : Option SkipReason) : String :=
  match r with
  | some (SkipReason.insufficientAfterReserve a res) =>
    "Insufficient ZAR after reserve (have R" ++ toString a ++ ", reserve R" ++ toString res ++ ")"
  | some (SkipReason.insufficientForFF n u) =>
    "Insufficient ZAR for F&F payments. Need: R" ++ toString n ++ ", Have: R" ++ toString u
  | none => "Skipped"

/-- One row of the `repayment_executions` table
(`TransactionDatabase.recordRepaymentExecution` argument). -/
structure ExecRecordRow where
  actionsPlanned : ℕ
  actionsExecuted : ℕ
  totalZARSpent : ℚ
  ffPaymentsCount : ℕ
  valrPaymentsCount : ℕ
  success : Bool
  errors : List String
deriving DecidableEq

/-- The record persisted for a skipped (non-executable) cycle. -/
def skipRow (plan : RepaymentPlan) : ExecRecordRow :=
  { actionsPlanned := plan.payments.length
    actionsExecuted := 0
    totalZARSpent := 0
    ffPaymentsCount := 0
    valrPaymentsCount := 0
    success := true
    errors := [skipReasonText plan.skippedReason] }

/-- The provisional record persisted before the action loop (`success: false`,
zero counts). -/
def provRow (plan : RepaymentPlan) : ExecRecordRow :=
  { actionsPlanned := plan.payments.length
    actionsExecuted := 0
    totalZARSpent := 0
    ffPaymentsCount := 0
    valrPaymentsCount := 0
    success := false
    errors := [] }

/-- The terminal record persisted after the action loop. -/
def finalRow (er : ExecutionResult) : ExecRecordRow :=
  { actionsPlanned := er.actionsPlanned
    actionsExecuted := er.actionsExecuted
    totalZARSpent := er.totalZARSpent
    ffPaymentsCount := er.breakdown.friendsFamilyPayments
    valrPaymentsCount := er.breakdown.valrLoanPayments
    success := er.success
    errors := er.errors }

/-- Everything one invocation of `executeRepaymentCycle` can observe:
the outcome of plan building (`.error` models a throw inside
`buildRepaymentPlan`, e.g. a failing ledger read), the loaded loans, the
per-action external outcomes, and the outcomes of the up to three
`recordRepaymentExecution` ledger writes (returning the inserted row id). -/
structure CycleEnv where
  planResult : Except String RepaymentPlan
  loans : List FriendsAndFamilyLoan
  actionEnvs : ℕ → ActionEnv
  writeSkip : Except String ℕ
  writeProv : Except String ℕ
  writeFinal : Except String ℕ

/-- `executeRepaymentCycle` from repayment-manager.ts. The whole body sits in a
`try`/`catch` whose handler flips `success`, records the message, and returns:
the function therefore always returns a result. Also returned: the list of
ledger rows actually persisted during the invocation, in write order. -/
def executeRepaymentCycle (env : CycleEnv) : ExecutionResult × List ExecRecordRow :=
  match env.planResult with
  | .error e => ({ initResult 0 with success := false, errors := [e] }, [])
  | .ok plan =>
    let res0 := initResult plan.payments.length
    if plan.canExecute = false then
      match env.writeSkip with
      | .error e => ({ res0 with success := false, errors := [e] }, [])
      | .ok _ => (res0, [skipRow plan])
    else
      match env.writeProv with
      | .error e => ({ res0 with success := false, errors := [e] }, [])
      | .ok _ =>
        let er := executeRepaymentPlan env.loans env.actionEnvs plan
        match env.writeFinal with
        | .error e => ({ res0 with success := false, errors := [e] }, [provRow plan])
        | .ok _ => (er, [provRow plan, finalRow er])

/-! ## FriendsFamilyLoanManager: loading and validation -/

/-- A raw recipient object as found in the JSON config (fields may be absent). -/
structure RawRecipient where
  type : Option String
  value : Option String
deriving DecidableEq

/-- A raw loan object as found in the JSON config. `none` models an absent (or
JS-falsy non-zero) field. `startDate : some none` models a present but
unparseable date string (`isNaN(new Date(...).getTime())`); `some (some t)` a
date parsing to timestamp `t`. -/
structure RawLoan where
  id : Option String
  name : Option String
  principal : Option ℚ
  recipient : Option RawRecipient
  interestRate : Option ℚ
  startDate : Option (Option ℚ)
  cryptoPreference : Option String
  active : Bool
  notes : Option String := none
deriving DecidableEq

/-- A parsed config document; `loans = none` models a missing / non-array
`loans` field. -/
structure RawConfig where
  version : Option String
  loans : Option (List RawLoan)
deriving DecidableEq

/-- What reading the config file produced: absent file, a read/JSON-parse
throw, or parsed content. -/
inductive LoadSource where
  | fileMissing
  | readFailure (msg : String)
  | content (cfg : RawConfig)

/-- The `for (const field of required)` presence loop of `validateLoan`,
returning the first missing field name. -/
def requiredMissing (loan : RawLoan) : Option String :=
  if loan.id.isNone then some "id"
  else if loan.name.isNone then some "name"
  else if loan.principal.isNone then some "principal"
  else if loan.recipient.isNone then some "recipient"
  else if loan.interestRate.isNone then some "interestRate"
  else if loan.startDate.isNone then some "startDate"
  else if loan.cryptoPreference.isNone then some "cryptoPreference"
  else none

/-- `validateLoan` from friends-family-loans.ts: field presence, `principal > 0`,
rate in `[0, 1]`, recipient shape and kind, parseable start date. `.error`
models the thrown validation error. -/
def validateLoan (loan : RawLoan) : Except String Unit :=
  let who := loan.id.getD "unknown"
  match requiredMissing loan with
  | some f => .error ("Missing required field: " ++ f ++ " in loan " ++ who)
  | none =>
    if loan.principal.getD 0 ≤ 0 then
      .error ("Invalid principal amount for loan " ++ who)
    else if loan.interestRate.getD 0 < 0 ∨ 1 < loan.interestRate.getD 0 then
      .error ("Invalid interest rate for loan " ++ who ++ " (must be between 0 and 1)")
    else
      match loan.recipient with
      | none => .error ("Invalid recipient for loan " ++ who ++ " (must be an object)")
      | some r =>
        if r.type.isNone ∨ r.value.isNone then
          .error ("Recipient must have type and value fields for loan " ++ who)
        else if ¬ (r.type.getD "" = "valrAccountId" ∨ r.type.getD "" = "email" ∨
            r.type.getD "" = "cellNumber") then
          .error ("Invalid recipient type for loan " ++ who)
        else
          match loan.startDate with
          | none => .error ("Invalid start date for loan " ++ who)
          | some none => .error ("Invalid start date for loan " ++ who)
          | some (some _) => .ok ()

/-- The validation loop of `loadLoans`: throws at the first invalid loan. -/
def validateLoans : List RawLoan → Except String Unit
  | [] => .ok ()
  | l :: ls =>
    match validateLoan l with
    | .error e => .error e
    | .ok _ => validateLoans ls

/-- `loadLoans` from friends-family-loans.ts, as a function from the previous
in-memory list and the read source to the new in-memory list. Every throwing
path is caught by the surrounding `catch`, which logs and sets
`this.loans = []`; the absent-file path also installs the empty list. Note the
previous list is never consulted. -/
def loadLoans (prev : List RawLoan) (src : LoadSource) : List RawLoan :=
  match src with
  | LoadSource.fileMissing => []
  | LoadSource.readFailure _ => []
  | LoadSource.content cfg =>
    if cfg.version.isNone then []
    else
      match cfg.loans with
      | none => []
      | some ls =>
        match validateLoans ls with
        | .error _ => []
        | .ok _ => ls.filter (fun l => l.active)

/-! ## Sanitization (sanitize.ts) -/

/-- JS `value.slice(-k)` for `0 ≤ k < value.length`: `slice(-0)` is `slice(0)`
(the whole string), otherwise the last `k` characters. -/
def jsSliceLast (value : List Char) (k : ℕ) : List Char :=
  if k = 0 then value else value.drop (value.length - k)

/-- `maskString` from sanitize.ts, on strings embedded as char lists. -/
def maskString (value : List Char) (visibleChars : ℕ) : List Char :=
  if value = [] ∨ value.length ≤ visibleChars then
    List.replicate value.length '*'
  else
    List.replicate (value.length - visibleChars) '*' ++ jsSliceLast value visibleChars

/-- `maskName`: keep only the last 3 characters. -/
def maskName (name : List Char) : List Char := maskString name 3

/-- `maskContact`: keep only the last 4 characters. -/
def maskContact (contact : List Char) : List Char := maskString contact 4

/-- The PII-bearing part of an `FFLoanSummary`'s loan, char-list strings. -/
structure FFLoanView where
  name : List Char
  recipientValue : List Char
  notes : Option (List Char) := none
deriving DecidableEq

/-- The slice of `FFLoanSummary` that `sanitizeFFLoanSummary` rewrites. -/
structure FFLoanSummaryView where
  loan : FFLoanView
  totalInterestPaid : ℚ
  totalPrincipalPaid : ℚ
deriving DecidableEq

/-- `sanitizeFFLoanSummary` from sanitize.ts: mask the name (last 3 visible),
the recipient value (last 4 visible), and redact notes when present. -/
def sanitizeFFLoanSummary (summary : FFLoanSummaryView) : FFLoanSummaryView :=
  { summary with
    loan :=
      { name := maskName summary.loan.name
        recipientValue := maskContact summary.loan.recipientValue
        notes := summary.loan.notes.map fun _ => "[REDACTED]".data } }

/-! ## Helper lemmas: due payments and priority-1 actions -/

/-- Membership in the due-payment list: exactly the due loans' records. -/
lemma mem_getPaymentsDueThisMonth {loans : List FriendsAndFamilyLoan} {db : DbView}
    {now : ℚ} {p : FFLoanPayment} :
    p ∈ getPaymentsDueThisMonth loans db now ↔
      ∃ l, l ∈ loans ∧ isDue db now l = true ∧ p = duePayment now l := by
  simp only [getPaymentsDueThisMonth, List.mem_filterMap]
  constructor
  · rintro ⟨l, hl, hopt⟩
    by_cases h : isDue db now l
    · simp only [h, if_true, Option.some.injEq] at hopt
      exact ⟨l, hl, h, hopt.symm⟩
    · simp [h] at hopt
  · rintro ⟨l, hl, h, rfl⟩
    exact ⟨l, hl, by simp [h]⟩

/-- If every element of a list is sent to `some` of a related value, `filterMap`
produces a pointwise-related list. -/
lemma forall₂_filterMap_of_forall {α β : Type} {R : α → β → Prop} (f : α → Option β) :
    ∀ l : List α, (∀ a ∈ l, ∃ b, f a = some b ∧ R a b) → List.Forall₂ R l (l.filterMap f)
  | [], _ => by simp
  | a :: l, h => by
    obtain ⟨b, hb, hR⟩ := h a (by simp)
    rw [List.filterMap_cons, hb]
    exact List.Forall₂.cons hR
      (forall₂_filterMap_of_forall f l (fun x hx => h x (by simp [hx])))

/-- How a planned priority-1 action mirrors its due payment. -/
def ffActionMatches (p : FFLoanPayment) (a : RepaymentAction) : Prop :=
  a.priority = 1 ∧ a.type = ActionType.FRIENDS_FAMILY ∧ a.loanIdentifier = p.loanId ∧
    a.amountNeeded = p.amountZAR ∧ a.amountInZAR = p.amountZAR ∧ a.currency = p.cryptoCurrency

/-- For a payment produced by `getPaymentsDueThisMonth`, the loan lookup always
succeeds and the built action mirrors the payment. -/
lemma mkFFAction_of_mem {loans : List FriendsAndFamilyLoan} {db : DbView} {now : ℚ}
    {p : FFLoanPayment} (hp : p ∈ getPaymentsDueThisMonth loans db now) :
    ∃ a, mkFFAction loans p = some a ∧ ffActionMatches p a := by
  obtain ⟨l, hl, _, rfl⟩ := mem_getPaymentsDueThisMonth.1 hp
  have hfind : (loans.find? fun x => x.id == (duePayment now l).loanId).isSome := by
    rw [List.find?_isSome]
    exact ⟨l, hl, by simp [duePayment]⟩
  obtain ⟨loan, hloan⟩ := Option.isSome_iff_exists.1 hfind
  have hid : loan.id = (duePayment now l).loanId := by
    have := List.find?_some hloan
    simpa using this
  have hmk : mkFFAction loans (duePayment now l) = some
      { priority := 1
        type := ActionType.FRIENDS_FAMILY
        loanIdentifier := loan.id
        currency := (duePayment now l).cryptoCurrency
        amountNeeded := (duePayment now l).amountZAR
        amountInZAR := (duePayment now l).amountZAR
        recipientType := some loan.recipient.type
        recipientValue := some loan.recipient.value
        recipientName := some loan.name } := by
    simp [mkFFAction, getLoan, hloan]
  exact ⟨_, hmk, rfl, rfl, hid, rfl, rfl, rfl⟩

/-- The priority-1 action list mirrors the due-payment list pointwise. -/
lemma ffActionsList_forall₂ (loans : List FriendsAndFamilyLoan) (db : DbView) (now : ℚ) :
    List.Forall₂ ffActionMatches (getPaymentsDueThisMonth loans db now)
      (ffActionsList loans db now) :=
  forall₂_filterMap_of_forall (mkFFAction loans) _ fun _ hp => mkFFAction_of_mem hp

/-- `reduce((sum, a) => sum + f a, 0)` is the sum of the mapped list. -/
lemma foldl_add_eq_sum {α : Type} (g : α → ℚ) (l : List α) :
    l.foldl (fun s a => s + g a) 0 = (l.map g).sum := by
  have h : ∀ (l : List α) (c : ℚ), l.foldl (fun s a => s + g a) c = c + (l.map g).sum := by
    intro l
    induction l with
    | nil => simp
    | cons a t ih => intro c; simp [List.foldl_cons, ih, add_assoc]
  simpa using h l 0

/-- Pointwise-related lists have equal images under matching maps. -/
lemma forall₂_map_eq {α β γ : Type} {R : α → β → Prop} {f : α → γ} {g : β → γ}
    (hfg : ∀ a b, R a b → f a = g b) :
    ∀ {l₁ : List α} {l₂ : List β}, List.Forall₂ R l₁ l₂ → l₁.map f = l₂.map g := by
  intro l₁ l₂ h
  induction h with
  | nil => rfl
  | cons hR _ ih => simp only [List.map_cons, hfg _ _ hR, ih]

/-- `ffTotalNeeded` equals the sum of the due payments' fiat amounts. -/
lemma ffTotal_eq_dueSum (loans : List FriendsAndFamilyLoan) (db : DbView) (now : ℚ) :
    (ffActionsList loans db now).foldl (fun s a => s + a.amountInZAR) 0 =
      ((getPaymentsDueThisMonth loans db now).map (fun p => p.amountZAR)).sum := by
  rw [foldl_add_eq_sum]
  have := forall₂_map_eq (R := ffActionMatches) (f := fun p => p.amountZAR)
    (g := fun a => a.amountInZAR) (fun _ _ h => h.2.2.2.2.1.symm)
    (ffActionsList_forall₂ loans db now)
  rw [this]

/-- Every planned priority-1 action has priority 1 and the F&F channel. -/
lemma ffActionsList_priority (loans : List FriendsAndFamilyLoan) (db : DbView) (now : ℚ) :
    ∀ a ∈ ffActionsList loans db now,
      a.priority = 1 ∧ a.type = ActionType.FRIENDS_FAMILY := by
  intro a ha
  obtain ⟨p, _, hm⟩ := List.mem_filterMap.1 ha
  obtain ⟨loan, _, hl⟩ := Option.map_eq_some'.1 hm
  rw [← hl]
  exact ⟨rfl, rfl⟩

/-- A list of priority-1 actions is sorted for `prioLe`. -/
lemma pairwise_of_priority_one {l : List RepaymentAction} (h : ∀ a ∈ l, a.priority = 1) :
    l.Pairwise prioLe := by
  induction l with
  | nil => exact List.Pairwise.nil
  | cons a t ih =>
    constructor
    · intro b hb
      show a.priority ≤ b.priority
      rw [h a (List.mem_cons_self a t), h b (List.mem_cons_of_mem a hb)]
    · exact ih fun x hx => h x (List.mem_cons_of_mem a hx)

/-- Appending one priority-2 action to priority-1 actions stays sorted. -/
lemma pairwise_append_two {l : List RepaymentAction} {b : RepaymentAction}
    (h : ∀ a ∈ l, a.priority = 1) (hb : b.priority = 2) :
    (l ++ [b]).Pairwise prioLe := by
  rw [List.pairwise_append]
  refine ⟨pairwise_of_priority_one h, List.pairwise_singleton _ _, ?_⟩
  intro a ha c hc
  rw [List.mem_singleton] at hc
  show a.priority ≤ c.priority
  rw [h a ha, hc, hb]
  omega

/-! ## Branch shapes of `buildRepaymentPlan` -/

/-- Branch 1: nothing usable after the reserve. -/
lemma buildRepaymentPlan_reserveShort (cfg : RepaymentConfig) (br : Except String ℚ)
    (loans : List FriendsAndFamilyLoan) (db : DbView) (now : ℚ) (metrics : LoanMetrics)
    (h : getAvailableZAR br - cfg.minimumZARReserve ≤ 0) :
    buildRepaymentPlan cfg br loans db now metrics =
      { totalZARAvailable := getAvailableZAR br
        totalZARNeeded := 0
        canExecute := false
        payments := []
        skippedReason := some (SkipReason.insufficientAfterReserve (getAvailableZAR br)
          cfg.minimumZARReserve) } := by
  simp only [buildRepaymentPlan]
  rw [if_pos h]

/-- Branch 2: usable fiat positive but short of the obligation total. -/
lemma buildRepaymentPlan_ffShort (cfg : RepaymentConfig) (br : Except String ℚ)
    (loans : List FriendsAndFamilyLoan) (db : DbView) (now : ℚ) (metrics : LoanMetrics)
    (h₁ : 0 < getAvailableZAR br - cfg.minimumZARReserve)
    (h₂ : getAvailableZAR br - cfg.minimumZARReserve <
      ((getPaymentsDueThisMonth loans db now).map (fun p => p.amountZAR)).sum) :
    buildRepaymentPlan cfg br loans db now metrics =
      { totalZARAvailable := getAvailableZAR br
        totalZARNeeded := ((getPaymentsDueThisMonth loans db now).map (fun p => p.amountZAR)).sum
        canExecute := false
        payments := ffActionsList loans db now
        skippedReason := some (SkipReason.insufficientForFF
          (((getPaymentsDueThisMonth loans db now).map (fun p => p.amountZAR)).sum)
          (getAvailableZAR br - cfg.minimumZARReserve)) } := by
  simp only [buildRepaymentPlan, ffTotal_eq_dueSum]
  rw [if_neg (not_le.2 h₁), if_pos h₂]

/-! ## Concrete inputs reused by witnesses and counterexamples -/

/-- A concrete zero-reserve config. -/
def cfgW : RepaymentConfig := { minimumZARReserve := 0 }

/-- A concrete `R50` reserve config. -/
def cfgR50 : RepaymentConfig := { minimumZARReserve := 50 }

/-- A concrete loan: R12000 at 12 percent, so R120 monthly interest. -/
def loanW : FriendsAndFamilyLoan :=
  { id := "ff-1"
    name := "Alice"
    principal := 12000
    currency := "ZAR"
    recipient := { type := RecipientType.email, value := "alice@example.com" }
    interestRate := 12/100
    startDate := 0
    cryptoPreference := "USDC"
    active := true }

/-- A ledger view with no payment history. -/
def dbW : DbView := { lastPaymentDate := fun _ => none, paymentsThisMonth := fun _ => [] }

/-- A clock 40 days after `loanW`'s start. -/
def nowW : ℚ := 40 * msPerDay

/-- A metrics snapshot with one revolving loan. -/
def metricsW : LoanMetrics :=
  { loans := [{ currency := "USDC" }], effectiveAPRByLoan := [("USDC", 12)] }

/-- An empty metrics snapshot (no revolving loans detected). -/
def metricsEmpty : LoanMetrics := { loans := [], effectiveAPRByLoan := [] }

/-- C1: a planning cycle with usable fiat below the obligation total in which the
plan's payments list does NOT contain the due priority-1 obligation actions:
with R50 available and an R50 reserve, usable fiat is 0 < the R120 due, yet the
`usableZAR <= 0` branch of `buildRepaymentPlan` returns an EMPTY payments list.
The due-payment list is nonempty, refuting the claim's visibility conjunct. -/
theorem c1_counterexample :
    ((getPaymentsDueThisMonth [loanW] dbW nowW).map (fun p => p.amountZAR)).sum = 120 ∧
    getAvailableZAR (Except.ok 50) - cfgR50.minimumZARReserve < 120 ∧
    (buildRepaymentPlan cfgR50 (Except.ok 50) [loanW] dbW nowW metricsW).canExecute = false ∧
    (buildRepaymentPlan cfgR50 (Except.ok 50) [loanW] dbW nowW metricsW).payments = [] := by
  refine ⟨?_, ?_, ?_, ?_⟩
  · norm_num [getPaymentsDueThisMonth, List.filterMap_cons, isDue, duePayment,
      calculateMonthlyInterest, loanW, dbW, nowW, msPerDay]
  · norm_num [getAvailableZAR, cfgR50]
  · rw [buildRepaymentPlan_reserveShort _ _ _ _ _ _ (by norm_num [getAvailableZAR, cfgR50])]
  · rw [buildRepaymentPlan_reserveShort _ _ _ _ _ _ (by norm_num [getAvailableZAR, cfgR50])]

/-- C1 (amended: the usable fiat must also be strictly positive, otherwise the
`usableZAR <= 0` branch returns an empty list): whenever
`0 < usable < obligationTotal`, the plan is non-executable, its payments list is
exactly the due priority-1 obligation actions (same order, same full amounts —
no reductions), and it contains zero priority-2 revolving-debt actions. -/
theorem buildRepaymentPlan_obligationShortfall (cfg : RepaymentConfig) (br : Except String ℚ)
    (loans : List FriendsAndFamilyLoan) (db : DbView) (now : ℚ) (metrics : LoanMetrics)
    (h₁ : 0 < getAvailableZAR br - cfg.minimumZARReserve)
    (h₂ : getAvailableZAR br - cfg.minimumZARReserve <
      ((getPaymentsDueThisMonth loans db now).map (fun p => p.amountZAR)).sum) :
    (buildRepaymentPlan cfg br loans db now metrics).canExecute = false ∧
    List.Forall₂ ffActionMatches (getPaymentsDueThisMonth loans db now)
      (buildRepaymentPlan cfg br loans db now metrics).payments ∧
    (∀ a ∈ (buildRepaymentPlan cfg br loans db now metrics).payments,
      a.priority = 1 ∧ a.type = ActionType.FRIENDS_FAMILY) ∧
    ((buildRepaymentPlan cfg br loans db now metrics).payments.filter
      (fun a => a.priority == 2)) = [] ∧
    (∀ p ∈ getPaymentsDueThisMonth loans db now, ∃ l ∈ loans,
      p.loanId = l.id ∧ p.amountZAR = calculateMonthlyInterest l) := by
  rw [buildRepaymentPlan_ffShort cfg br loans db now metrics h₁ h₂]
  refine ⟨rfl, ffActionsList_forall₂ loans db now, ffActionsList_priority loans db now, ?_, ?_⟩
  · rw [List.filter_eq_nil_iff]
    intro a ha
    have h1 := (ffActionsList_priority loans db now a ha).1
    simp [h1]
  · intro p hp
    obtain ⟨l, hl, _, rfl⟩ := mem_getPaymentsDueThisMonth.1 hp
    exact ⟨l, hl, rfl, rfl⟩

/-- C1 witness: R100 available, zero reserve, R120 due. -/
theorem c1_witness :
    (buildRepaymentPlan cfgW (Except.ok 100) [loanW] dbW nowW metricsW).canExecute = false :=
  (buildRepaymentPlan_obligationShortfall cfgW (Except.ok 100) [loanW] dbW nowW metricsW
    (by norm_num [getAvailableZAR, cfgW])
    (by norm_num [getAvailableZAR, cfgW, getPaymentsDueThisMonth, List.filterMap_cons,
      isDue, duePayment, calculateMonthlyInterest, loanW, dbW, nowW, msPerDay])).1

/-- C9: a thrown balance read is treated as a zero balance: `getAvailableZAR`
returns 0, the resulting plan is identical to the zero-balance plan, and (for a
nonnegative configured reserve) the cycle is planned as a non-executable skip
with the insufficient-funds reason. -/
theorem getAvailableZAR_error_skips (e : String) (cfg : RepaymentConfig)
    (loans : List FriendsAndFamilyLoan) (db : DbView) (now : ℚ) (metrics : LoanMetrics)
    (hres : 0 ≤ cfg.minimumZARReserve) :
    getAvailableZAR (Except.error e) = 0 ∧
    buildRepaymentPlan cfg (Except.error e) loans db now metrics =
      buildRepaymentPlan cfg (Except.ok 0) loans db now metrics ∧
    (buildRepaymentPlan cfg (Except.error e) loans db now metrics).canExecute = false ∧
    (buildRepaymentPlan cfg (Except.error e) loans db now metrics).skippedReason =
      some (SkipReason.insufficientAfterReserve 0 cfg.minimumZARReserve) := by
  have hplan := buildRepaymentPlan_reserveShort cfg (Except.error e) loans db now metrics
    (by show getAvailableZAR (Except.error e) - cfg.minimumZARReserve ≤ 0
        show (0 : ℚ) - cfg.minimumZARReserve ≤ 0
        linarith)
  refine ⟨rfl, rfl, ?_, ?_⟩
  · rw [hplan]
  · rw [hplan]
    rfl

/-- C9 witness: a concrete failing balance read with the zero-reserve config. -/
theorem c9_witness :
    (buildRepaymentPlan cfgW (Except.error "connection reset") [loanW] dbW nowW
      metricsW).canExecute = false :=
  (getAvailableZAR_error_skips "connection reset" cfgW [loanW] dbW nowW metricsW
    (by norm_num [cfgW])).2.2.1

/-- C2: a planning cycle with `usable ≥ obligationTotal` and a strictly positive
remainder in which NO revolving-debt action is planned: when the loan-metrics
snapshot lists no revolving loan (`sortedLoans.length > 0` fails), the plan is
executable with an empty payments list, refuting "plans exactly one
revolving-debt action". -/
theorem c2_counterexample :
    ((getPaymentsDueThisMonth ([] : List FriendsAndFamilyLoan) dbW nowW).map
      (fun p => p.amountZAR)).sum = 0 ∧
    (0 : ℚ) < getAvailableZAR (Except.ok 100) - cfgW.minimumZARReserve - 0 ∧
    (buildRepaymentPlan cfgW (Except.ok 100) [] dbW nowW metricsEmpty).canExecute = true ∧
    (buildRepaymentPlan cfgW (Except.ok 100) [] dbW nowW metricsEmpty).payments = [] := by
  refine ⟨rfl, by norm_num [getAvailableZAR, cfgW], ?_, ?_⟩ <;>
    norm_num [buildRepaymentPlan, ffActionsList, getPaymentsDueThisMonth, getAvailableZAR,
      cfgW, metricsEmpty, List.insertionSort]

/-- Sorting priority-1 actions plus one appended priority-2 action and keeping
only priority 2 leaves exactly that one action. -/
lemma filter_p2_of_sorted_append (ff : List RepaymentAction) (b : RepaymentAction)
    (hff : ∀ a ∈ ff, a.priority = 1) (hb : b.priority = 2) :
    (List.insertionSort prioLe (ff ++ [b])).filter (fun x => x.priority == 2) = [b] := by
  have hperm : ((List.insertionSort prioLe (ff ++ [b])).filter (fun x => x.priority == 2)).Perm
      ((ff ++ [b]).filter (fun x => x.priority == 2)) :=
    (List.perm_insertionSort prioLe _).filter _
  have hfe : (ff ++ [b]).filter (fun x => x.priority == 2) = [b] := by
    rw [List.filter_append]
    have h1 : ff.filter (fun x => x.priority == 2) = [] := by
      rw [List.filter_eq_nil_iff]
      intro a ha
      simp [hff a ha]
    rw [h1, List.nil_append]
    simp [hb]
  rw [hfe] at hperm
  exact List.perm_singleton.1 hperm

/-- C2 (amended: the loan-metrics snapshot must list at least one revolving
loan, otherwise no priority-2 action is appended; due amounts assumed
nonnegative): with `obligationTotal ≤ usable`, a strictly positive remainder and
a nonempty snapshot, exactly one priority-2 revolving-debt action is planned,
its fiat amount is exactly `usable - obligationTotal`, and its currency carries
the maximal effective APR (`aprs[c] || 0`) among the snapshot's loans. -/
theorem buildRepaymentPlan_surplus (cfg : RepaymentConfig) (br : Except String ℚ)
    (loans : List FriendsAndFamilyLoan) (db : DbView) (now : ℚ) (metrics : LoanMetrics)
    (h₀ : 0 ≤ ((getPaymentsDueThisMonth loans db now).map (fun p => p.amountZAR)).sum)
    (h₁ : ((getPaymentsDueThisMonth loans db now).map (fun p => p.amountZAR)).sum <
      getAvailableZAR br - cfg.minimumZARReserve)
    (h₂ : metrics.loans ≠ []) :
    ∃ a, (buildRepaymentPlan cfg br loans db now metrics).canExecute = true ∧
      ((buildRepaymentPlan cfg br loans db now metrics).payments.filter
        (fun x => x.priority == 2)) = [a] ∧
      a.type = ActionType.VALR_LOAN ∧
      a.amountInZAR = getAvailableZAR br - cfg.minimumZARReserve -
        ((getPaymentsDueThisMonth loans db now).map (fun p => p.amountZAR)).sum ∧
      a.currency ∈ metrics.loans.map (fun l => l.currency) ∧
      a.apr = some (aprOf metrics a.currency) ∧
      (∀ l ∈ metrics.loans, aprOf metrics l.currency ≤ aprOf metrics a.currency) := by
  have husable_pos : 0 < getAvailableZAR br - cfg.minimumZARReserve := lt_of_le_of_lt h₀ h₁
  have hpairs : metrics.loans.map (fun l => (l.currency, aprOf metrics l.currency)) ≠ [] := by
    intro h
    exact h₂ (List.map_eq_nil_iff.1 h)
  have hsortne :
      List.insertionSort aprGe
        (metrics.loans.map fun l => (l.currency, aprOf metrics l.currency)) ≠ [] := by
    intro h
    apply hpairs
    have hperm := List.perm_insertionSort aprGe
      (metrics.loans.map fun l => (l.currency, aprOf metrics l.currency))
    rw [h] at hperm
    exact hperm.symm.eq_nil
  obtain ⟨best, rest, hbr⟩ := List.exists_cons_of_ne_nil hsortne
  have hsorted := List.sorted_insertionSort aprGe
    (metrics.loans.map fun l => (l.currency, aprOf metrics l.currency))
  rw [hbr] at hsorted
  have hperm := List.perm_insertionSort aprGe
    (metrics.loans.map fun l => (l.currency, aprOf metrics l.currency))
  rw [hbr] at hperm
  have hmax : ∀ x ∈ metrics.loans.map (fun l => (l.currency, aprOf metrics l.currency)),
      x.2 ≤ best.2 := by
    intro x hx
    rcases List.mem_cons.1 (hperm.mem_iff.2 hx) with h | h
    · rw [h]
    · exact (List.pairwise_cons.1 hsorted).1 x h
  have hbestmem : best ∈ metrics.loans.map (fun l => (l.currency, aprOf metrics l.currency)) :=
    hperm.mem_iff.1 (List.mem_cons_self best rest)
  obtain ⟨l0, hl0, hbest_eq⟩ := List.mem_map.1 hbestmem
  have hbest1 : best.1 = l0.currency := by rw [← hbest_eq]
  have hbest2 : best.2 = aprOf metrics best.1 := by
    rw [← hbest_eq]
  have hff := ffTotal_eq_dueSum loans db now
  have hrem : 0 < getAvailableZAR br - cfg.minimumZARReserve -
      ((getPaymentsDueThisMonth loans db now).map (fun p => p.amountZAR)).sum := sub_pos.2 h₁
  have hplan : (buildRepaymentPlan cfg br loans db now metrics).payments =
      List.insertionSort prioLe (ffActionsList loans db now ++
        [{ priority := 2
           type := ActionType.VALR_LOAN
           loanIdentifier := best.1
           currency := best.1
           amountNeeded := 0
           amountInZAR := getAvailableZAR br - cfg.minimumZARReserve -
             ((getPaymentsDueThisMonth loans db now).map (fun p => p.amountZAR)).sum
           apr := some best.2 }]) ∧
      (buildRepaymentPlan cfg br loans db now metrics).canExecute = true := by
    simp only [buildRepaymentPlan, hff]
    rw [if_neg (not_le.2 husable_pos), if_neg (not_lt.2 h₁.le)]
    simp only [if_pos hrem]
    rw [hbr]
    exact ⟨rfl, trivial⟩
  obtain ⟨hpay, hexec⟩ := hplan
  refine ⟨{ priority := 2
            type := ActionType.VALR_LOAN
            loanIdentifier := best.1
            currency := best.1
            amountNeeded := 0
            amountInZAR := getAvailableZAR br - cfg.minimumZARReserve -
              ((getPaymentsDueThisMonth loans db now).map (fun p => p.amountZAR)).sum
            apr := some best.2 }, hexec, ?_, rfl, rfl, ?_, ?_, ?_⟩
  · rw [hpay]
    exact filter_p2_of_sorted_append _ _
      (fun a ha => (ffActionsList_priority loans db now a ha).1) rfl
  · show best.1 ∈ metrics.loans.map (fun l => l.currency)
    exact List.mem_map.2 ⟨l0, hl0, hbest1.symm⟩
  · show some best.2 = some (aprOf metrics best.1)
    rw [hbest2]
  · intro l hl
    show aprOf metrics l.currency ≤ aprOf metrics best.1
    rw [← hbest2]
    exact hmax _ (List.mem_map.2 ⟨l, hl, rfl⟩)

theorem c2_witness :
    ((buildRepaymentPlan cfgW (Except.ok 500) [loanW] dbW nowW metricsW).payments.filter
      (fun x => x.priority == 2)).length = 1 := by
  obtain ⟨a, _, hf, _⟩ := buildRepaymentPlan_surplus cfgW (Except.ok 500) [loanW] dbW nowW
    metricsW
    (by norm_num [getPaymentsDueThisMonth, List.filterMap_cons, isDue, duePayment,
      calculateMonthlyInterest, loanW, dbW, nowW, msPerDay])
    (by norm_num [getAvailableZAR, cfgW, getPaymentsDueThisMonth, List.filterMap_cons,
      isDue, duePayment, calculateMonthlyInterest, loanW, dbW, nowW, msPerDay])
    (by simp [metricsW])
  simp [hf]

/-! ## C8: plan ordering -/

/-- The three shapes the returned payments list can take: empty (reserve
branch), the priority-1 actions alone, or the priority-1 actions followed by
one priority-2 action; in the executable branch the stable sort leaves the
already-ordered list unchanged. -/
lemma buildRepaymentPlan_payments_cases (cfg : RepaymentConfig) (br : Except String ℚ)
    (loans : List FriendsAndFamilyLoan) (db : DbView) (now : ℚ) (metrics : LoanMetrics) :
    (buildRepaymentPlan cfg br loans db now metrics).payments = [] ∨
    (buildRepaymentPlan cfg br loans db now metrics).payments = ffActionsList loans db now ∨
    ∃ a, (buildRepaymentPlan cfg br loans db now metrics).payments =
        ffActionsList loans db now ++ [a] ∧ a.priority = 2 := by
  have hp1 : ∀ a ∈ ffActionsList loans db now, a.priority = 1 :=
    fun a ha => (ffActionsList_priority loans db now a ha).1
  simp only [buildRepaymentPlan]
  by_cases h₁ : getAvailableZAR br - cfg.minimumZARReserve ≤ 0
  · rw [if_pos h₁]
    left
    rfl
  · rw [if_neg h₁]
    by_cases h₂ : getAvailableZAR br - cfg.minimumZARReserve <
        (ffActionsList loans db now).foldl (fun s a => s + a.amountInZAR) 0
    · rw [if_pos h₂]
      right
      left
      rfl
    · rw [if_neg h₂]
      by_cases h₃ : 0 < getAvailableZAR br - cfg.minimumZARReserve -
          (ffActionsList loans db now).foldl (fun s a => s + a.amountInZAR) 0
      · simp only [if_pos h₃]
        cases hs : List.insertionSort aprGe
            (metrics.loans.map fun l => (l.currency, aprOf metrics l.currency)) with
        | nil =>
          right
          left
          show List.insertionSort prioLe (ffActionsList loans db now) = _
          exact List.Sorted.insertionSort_eq (pairwise_of_priority_one hp1)
        | cons best rest =>
          right
          right
          exact ⟨_, List.Sorted.insertionSort_eq (pairwise_append_two hp1 rfl), rfl⟩
      · simp only [if_neg h₃]
        right
        left
        show List.insertionSort prioLe (ffActionsList loans db now) = _
        exact List.Sorted.insertionSort_eq (pairwise_of_priority_one hp1)

/-- C8: every returned plan's payments list is sorted by priority ascending
(priority-1 actions precede the priority-2 action), ties keep append order: the
list is exactly the priority-1 actions — in registry iteration order, mirroring
the due payments pointwise — optionally followed by the single priority-2
action. -/
theorem plan_sorted_by_priority (cfg : RepaymentConfig) (br : Except String ℚ)
    (loans : List FriendsAndFamilyLoan) (db : DbView) (now : ℚ) (metrics : LoanMetrics) :
    (buildRepaymentPlan cfg br loans db now metrics).payments.Pairwise prioLe ∧
    ((buildRepaymentPlan cfg br loans db now metrics).payments = [] ∨
      (buildRepaymentPlan cfg br loans db now metrics).payments = ffActionsList loans db now ∨
      ∃ a, (buildRepaymentPlan cfg br loans db now metrics).payments =
          ffActionsList loans db now ++ [a] ∧ a.priority = 2) ∧
    (∀ a ∈ ffActionsList loans db now, a.priority = 1) ∧
    List.Forall₂ ffActionMatches (getPaymentsDueThisMonth loans db now)
      (ffActionsList loans db now) := by
  have hp1 : ∀ a ∈ ffActionsList loans db now, a.priority = 1 :=
    fun a ha => (ffActionsList_priority loans db now a ha).1
  have hcases := buildRepaymentPlan_payments_cases cfg br loans db now metrics
  refine ⟨?_, hcases, hp1, ffActionsList_forall₂ loans db now⟩
  rcases hcases with h | h | ⟨a, h, ha⟩
  · rw [h]
    exact List.Pairwise.nil
  · rw [h]
    exact pairwise_of_priority_one hp1
  · rw [h]
    exact pairwise_append_two hp1 ha

/-! ## C7: due-payment characterization -/

/-- The claim's due condition, verbatim: no payment ever and at least 30 days
since the start date; or a payment exists but none this calendar month; or the
most recent payment is at least 30 days old. -/
def dueSpec (db : DbView) (now : ℚ) (l : FriendsAndFamilyLoan) : Prop :=
  (db.lastPaymentDate l.id = none ∧ 30 ≤ (now - l.startDate) / msPerDay) ∨
  ((∃ t, db.lastPaymentDate l.id = some t) ∧ (db.paymentsThisMonth l.id).length = 0) ∨
  (∃ t, db.lastPaymentDate l.id = some t ∧ 30 ≤ (now - t) / msPerDay)

/-- The source's due test decides exactly the claim's disjunction. -/
lemma isDue_iff_dueSpec (db : DbView) (now : ℚ) (l : FriendsAndFamilyLoan) :
    isDue db now l = true ↔ dueSpec db now l := by
  unfold isDue dueSpec
  cases h : db.lastPaymentDate l.id with
  | none => simp [h]
  | some t =>
    by_cases hm : (db.paymentsThisMonth l.id).length = 0
    · simp [h, hm]
    · simp [h, hm]

/-- With distinct loan ids, at most one due entry is emitted per id. -/
lemma pays_count_le_one : ∀ (loans : List FriendsAndFamilyLoan) (db : DbView) (now : ℚ),
    (loans.map (fun l => l.id)).Nodup → ∀ lid : String,
    ((getPaymentsDueThisMonth loans db now).filter (fun p => p.loanId == lid)).length ≤ 1 := by
  intro loans db now
  induction loans with
  | nil =>
    intro _ lid
    simp [getPaymentsDueThisMonth]
  | cons l ls ih =>
    intro hnd lid
    rw [List.map_cons, List.nodup_cons] at hnd
    obtain ⟨hnotin, hnd2⟩ := hnd
    have hexp : getPaymentsDueThisMonth (l :: ls) db now =
        (if isDue db now l then [duePayment now l] else []) ++
          getPaymentsDueThisMonth ls db now := by
      simp only [getPaymentsDueThisMonth, List.filterMap_cons]
      by_cases h : isDue db now l <;> simp [h]
    rw [hexp, List.filter_append, List.length_append]
    have hhead : ((if isDue db now l then [duePayment now l] else []).filter
        (fun p => p.loanId == lid)).length ≤ (if l.id = lid then 1 else 0) := by
      by_cases hdue : isDue db now l <;> by_cases hid : l.id = lid <;>
        simp [hdue, hid, duePayment]
    by_cases hid : l.id = lid
    · have htail : ((getPaymentsDueThisMonth ls db now).filter
          (fun p => p.loanId == lid)).length = 0 := by
        rw [List.length_eq_zero, List.filter_eq_nil_iff]
        intro p hp
        obtain ⟨l2, hl2, _, rfl⟩ := mem_getPaymentsDueThisMonth.1 hp
        simp only [duePayment, beq_iff_eq]
        intro hEq
        exact hnotin (List.mem_map.2 ⟨l2, hl2, hEq.trans hid.symm⟩)
      rw [htail]
      rw [if_pos hid] at hhead
      omega
    · rw [if_neg hid] at hhead
      have htail := ih hnd2 lid
      omega

/-- C7: with distinct loan ids, `getPaymentsDueThisMonth` emits at most one
entry per obligation; an obligation gets an entry exactly when the claim's due
condition holds; and each entry has `amount = principal * rate / 12`,
kind INTEREST, and the obligation's preferred settlement currency. -/
theorem duePayments_characterization (loans : List FriendsAndFamilyLoan) (db : DbView)
    (now : ℚ) (hnd : (loans.map (fun l => l.id)).Nodup) :
    (∀ lid : String, ((getPaymentsDueThisMonth loans db now).filter
      (fun p => p.loanId == lid)).length ≤ 1) ∧
    (∀ l ∈ loans, ((∃ p ∈ getPaymentsDueThisMonth loans db now, p.loanId = l.id) ↔
      dueSpec db now l)) ∧
    (∀ p ∈ getPaymentsDueThisMonth loans db now, ∃ l ∈ loans, p.loanId = l.id ∧
      p.amountZAR = l.principal * l.interestRate / 12 ∧ p.type = PaymentType.INTEREST ∧
      p.cryptoCurrency = l.cryptoPreference) := by
  refine ⟨fun lid => pays_count_le_one loans db now hnd lid, ?_, ?_⟩
  · intro l hl
    constructor
    · rintro ⟨p, hp, hid⟩
      obtain ⟨l2, hl2, hdue, rfl⟩ := mem_getPaymentsDueThisMonth.1 hp
      have heq : l2 = l := List.inj_on_of_nodup_map hnd hl2 hl (by simpa [duePayment] using hid)
      rw [← heq]
      exact (isDue_iff_dueSpec db now l2).1 hdue
    · intro hspec
      exact ⟨duePayment now l,
        mem_getPaymentsDueThisMonth.2 ⟨l, hl, (isDue_iff_dueSpec db now l).2 hspec, rfl⟩, rfl⟩
  · intro p hp
    obtain ⟨l, hl, _, rfl⟩ := mem_getPaymentsDueThisMonth.1 hp
    exact ⟨l, hl, rfl, rfl, rfl, rfl⟩

/-- C7 witness: the single-loan registry emits at most one entry for its id. -/
theorem c7_witness :
    ((getPaymentsDueThisMonth [loanW] dbW nowW).filter
      (fun p => p.loanId == "ff-1")).length ≤ 1 :=
  (duePayments_characterization [loanW] dbW nowW (by simp [loanW])).1 "ff-1"

/-! ## C5: configuration loading -/

/-- A raw loan that passes validation. -/
def goodRaw : RawLoan :=
  { id := some "ff-1"
    name := some "Alice"
    principal := some 1000
    recipient := some { type := some "email", value := some "alice@example.com" }
    interestRate := some 1
    startDate := some (some 0)
    cryptoPreference := some "USDC"
    active := true }

/-- A raw loan with an invalid recipient kind. -/
def badRaw : RawLoan :=
  { goodRaw with
    id := some "ff-2"
    recipient := some { type := some "whatsapp", value := some "+27000000000" } }

/-- A parsed config whose single loan fails validation. -/
def badCfg : RawConfig := { version := some "1.0", loans := some [badRaw] }

/-- C5: the code does NOT retain the previously loaded set on a validation
failure: reloading `badCfg` over the in-memory set `[goodRaw]` installs the
EMPTY list (the `catch` block runs `this.loans = []`), not the previous set. -/
theorem c5_counterexample :
    loadLoans [goodRaw] (LoadSource.content badCfg) = [] ∧
    ([goodRaw] : List RawLoan) ≠ [] := by
  constructor
  · decide
  · decide

/-- C5 (amended: on a validation failure the whole load is aborted — no loan of
the new configuration is installed — but the in-memory set is RESET TO EMPTY,
not kept at the previous set; the error is caught and logged, `loadLoans`
returns normally): any failing validation yields the empty in-memory list,
regardless of the previous contents. -/
theorem loadLoans_failClosed (prev : List RawLoan) (cfg : RawConfig) (ls : List RawLoan)
    (e : String) (hls : cfg.loans = some ls) (hv : validateLoans ls = Except.error e) :
    loadLoans prev (LoadSource.content cfg) = [] := by
  unfold loadLoans
  by_cases hver : cfg.version.isNone
  · simp [hver]
  · simp [hver, hls, hv]

/-- C5 witness: reloading the failing config over a nonempty previous set. -/
theorem c5_witness : loadLoans [goodRaw] (LoadSource.content badCfg) = [] :=
  loadLoans_failClosed [goodRaw] badCfg [badRaw] ("Invalid recipient type for loan ff-2")
    rfl rfl

/-! ## C10: masking -/

/-- C10: with `visibleChars = 0` (the claim quantifies over all `n ≥ 0`) the
result is NOT the same length as the input: JS `slice(-0)` is `slice(0)`, so
`maskString "ab" 0` is `"**ab"` (length 4), not `"**"`. -/
theorem c10_counterexample :
    maskString ['a', 'b'] 0 = ['*', '*', 'a', 'b'] ∧
    (maskString ['a', 'b'] 0).length ≠ (['a', 'b'] : List Char).length := by
  constructor
  · rfl
  · decide

/-- C10 (amended: `n ≥ 1` rather than `n ≥ 0`; the program only uses 3 and 4):
masking preserves the length, everything before the last `min n (length s)`
characters is `'*'` (whole string masked when it is no longer than `n`), and the
sanitized summaries apply exactly this masking with 3 (names) and 4 (contact
values). -/
theorem maskString_masks (s : List Char) (n : ℕ) (hn : 1 ≤ n) (v : FFLoanSummaryView) :
    (maskString s n).length = s.length ∧
    (maskString s n).take (s.length - min n s.length) =
      List.replicate (s.length - min n s.length) '*' ∧
    (s.length ≤ n → maskString s n = List.replicate s.length '*') ∧
    (sanitizeFFLoanSummary v).loan.name = maskString v.loan.name 3 ∧
    (sanitizeFFLoanSummary v).loan.recipientValue = maskString v.loan.recipientValue 4 := by
  refine ⟨?_, ?_, ?_, rfl, rfl⟩
  · unfold maskString
    by_cases h : s = [] ∨ s.length ≤ n
    · rw [if_pos h]
      simp
    · rw [if_neg h]
      push_neg at h
      have hlt : n < s.length := h.2
      unfold jsSliceLast
      rw [if_neg (by omega : ¬ n = 0)]
      simp only [List.length_append, List.length_replicate, List.length_drop]
      omega
  · unfold maskString
    by_cases h : s = [] ∨ s.length ≤ n
    · rw [if_pos h]
      rw [List.take_replicate]
      have : min (s.length - min n s.length) s.length = s.length - min n s.length := by omega
      rw [this]
    · rw [if_neg h]
      push_neg at h
      have hlt : n < s.length := h.2
      have hmin : min n s.length = n := by omega
      rw [hmin]
      have hlen : (List.replicate (s.length - n) '*').length = s.length - n := by simp
      rw [List.take_append_of_le_length (by simp)]
      rw [List.take_replicate]
      have : min (s.length - n) (s.length - n) = s.length - n := by omega
      rw [this]
  · intro hle
    unfold maskString
    rw [if_pos (Or.inr hle)]

/-- C10 witness: masking a 5-character string with the default 4 visible keeps
the length and stars the first character. -/
theorem c10_witness :
    (maskString ['s', 'e', 'c', 'r', 'e'] 4).length = 5 := by
  have h := maskString_masks ['s', 'e', 'c', 'r', 'e'] 4 (by omega)
    { loan := { name := [], recipientValue := [] }, totalInterestPaid := 0,
      totalPrincipalPaid := 0 }
  simpa using h.1

/-! ## Executor helper lemmas -/

/-- `isOkE` detects exactly the `.ok` results. -/
lemma isOkE_true_iff {ε α : Type} (x : Except ε α) : isOkE x = true ↔ ∃ a, x = Except.ok a := by
  cases x <;> simp [isOkE]

/-- One outcome is observed per action. -/
lemma outcomesFrom_length (loans : List FriendsAndFamilyLoan) (aenv : ℕ → ActionEnv) :
    ∀ (i : ℕ) (acts : List RepaymentAction),
    (outcomesFrom loans aenv i acts).length = acts.length := by
  intro i acts
  induction acts generalizing i with
  | nil => rfl
  | cons a rest ih => simp [outcomesFrom, ih]

/-- One recorded error message per failed outcome. -/
lemma errMsg_filterMap_length : ∀ outs : List (RepaymentAction × Except String Unit),
    (outs.filterMap errMsg).length = (outs.filter (fun x => !(isOkE x.2))).length := by
  intro outs
  induction outs with
  | nil => rfl
  | cons x rest ih =>
    cases h : x.2 with
    | ok u => simp [List.filterMap_cons, List.filter_cons, errMsg, h, isOkE, ih]
    | error m => simp [List.filterMap_cons, List.filter_cons, errMsg, h, isOkE, ih]

/-- Outcomes split into successes and failures. -/
lemma filter_ok_add_filter_not : ∀ outs : List (RepaymentAction × Except String Unit),
    (outs.filter (fun x => isOkE x.2)).length +
      (outs.filter (fun x => !(isOkE x.2))).length = outs.length := by
  intro outs
  induction outs with
  | nil => rfl
  | cons x rest ih =>
    cases h : isOkE x.2 <;> simp [List.filter_cons, h] <;> omega

/-- Full characterization of the action loop: counters, spend, breakdown,
error list, and success flag are determined by the per-action outcomes; the
loop consumes every action. -/
lemma execLoop_spec (loans : List FriendsAndFamilyLoan) (aenv : ℕ → ActionEnv) :
    ∀ (acts : List RepaymentAction) (i : ℕ) (acc : ExecutionResult),
    execLoop loans aenv acts i acc =
      { success := acc.success && (outcomesFrom loans aenv i acts).all (fun x => isOkE x.2)
        actionsPlanned := acc.actionsPlanned
        actionsExecuted := acc.actionsExecuted +
          ((outcomesFrom loans aenv i acts).filter (fun x => isOkE x.2)).length
        errors := acc.errors ++ (outcomesFrom loans aenv i acts).filterMap errMsg
        totalZARSpent := acc.totalZARSpent +
          (((outcomesFrom loans aenv i acts).filter (fun x => isOkE x.2)).map
            (fun x => x.1.amountInZAR)).sum
        breakdown :=
          { friendsFamilyPayments := acc.breakdown.friendsFamilyPayments +
              ((outcomesFrom loans aenv i acts).filter (fun x =>
                isOkE x.2 && decide (x.1.type = ActionType.FRIENDS_FAMILY))).length
            valrLoanPayments := acc.breakdown.valrLoanPayments +
              ((outcomesFrom loans aenv i acts).filter (fun x =>
                isOkE x.2 && decide (x.1.type = ActionType.VALR_LOAN))).length } } := by
  intro acts
  induction acts with
  | nil =>
    intro i acc
    simp [execLoop, outcomesFrom]
  | cons a rest ih =>
    intro i acc
    simp only [execLoop, outcomesFrom]
    split
    next u heq =>
      rw [ih]
      cases hty : a.type <;>
        simp [ExecutionResult.mk.injEq, Breakdown.mk.injEq, List.all_cons, List.filter_cons,
          List.filterMap_cons, errMsg, heq, isOkE, bumpBreakdown, hty, List.append_assoc] <;>
        (repeat' apply And.intro) <;>
        first
          | omega
          | ring
          | rfl
    next m heq =>
      rw [ih]
      simp [ExecutionResult.mk.injEq, Breakdown.mk.injEq, List.all_cons, List.filter_cons,
        List.filterMap_cons, errMsg, heq, isOkE, List.append_assoc]

/-- `executeRepaymentPlan`, fully determined by the per-action outcomes. -/
lemma executeRepaymentPlan_spec (loans : List FriendsAndFamilyLoan) (aenv : ℕ → ActionEnv)
    (plan : RepaymentPlan) :
    executeRepaymentPlan loans aenv plan =
      { success := (outcomesFrom loans aenv 0 plan.payments).all (fun x => isOkE x.2)
        actionsPlanned := plan.payments.length
        actionsExecuted := ((outcomesFrom loans aenv 0 plan.payments).filter
          (fun x => isOkE x.2)).length
        errors := (outcomesFrom loans aenv 0 plan.payments).filterMap errMsg
        totalZARSpent := (((outcomesFrom loans aenv 0 plan.payments).filter
          (fun x => isOkE x.2)).map (fun x => x.1.amountInZAR)).sum
        breakdown :=
          { friendsFamilyPayments := ((outcomesFrom loans aenv 0 plan.payments).filter
              (fun x => isOkE x.2 && decide (x.1.type = ActionType.FRIENDS_FAMILY))).length
            valrLoanPayments := ((outcomesFrom loans aenv 0 plan.payments).filter
              (fun x => isOkE x.2 && decide (x.1.type = ActionType.VALR_LOAN))).length } } := by
  unfold executeRepaymentPlan
  rw [execLoop_spec]
  simp [initResult]

/-- Executed-action count never exceeds the planned count. -/
lemma executeRepaymentPlan_exec_le (loans : List FriendsAndFamilyLoan) (aenv : ℕ → ActionEnv)
    (plan : RepaymentPlan) :
    (executeRepaymentPlan loans aenv plan).actionsExecuted ≤
      (executeRepaymentPlan loans aenv plan).actionsPlanned := by
  rw [executeRepaymentPlan_spec]
  calc ((outcomesFrom loans aenv 0 plan.payments).filter (fun x => isOkE x.2)).length
      ≤ (outcomesFrom loans aenv 0 plan.payments).length := List.length_filter_le _ _
    _ = plan.payments.length := outcomesFrom_length loans aenv 0 plan.payments

/-- C4: per-action failure isolation in `executeRepaymentPlan`. The executed
count is the number of successful actions, the error list carries exactly one
`loanIdentifier: message` entry per failed action (later actions included —
the loop never aborts early: executed + failed = planned), and the cycle's
success flag is false exactly when at least one action failed. -/
theorem executeRepaymentPlan_isolates_failures (loans : List FriendsAndFamilyLoan)
    (aenv : ℕ → ActionEnv) (plan : RepaymentPlan) :
    (executeRepaymentPlan loans aenv plan).actionsPlanned = plan.payments.length ∧
    (executeRepaymentPlan loans aenv plan).actionsExecuted =
      ((outcomesFrom loans aenv 0 plan.payments).filter (fun x => isOkE x.2)).length ∧
    (executeRepaymentPlan loans aenv plan).errors =
      (outcomesFrom loans aenv 0 plan.payments).filterMap errMsg ∧
    (executeRepaymentPlan loans aenv plan).actionsExecuted +
      (executeRepaymentPlan loans aenv plan).errors.length = plan.payments.length ∧
    ((executeRepaymentPlan loans aenv plan).success = false ↔
      ∃ x ∈ outcomesFrom loans aenv 0 plan.payments, isOkE x.2 = false) := by
  rw [executeRepaymentPlan_spec]
  refine ⟨rfl, rfl, rfl, ?_, ?_⟩
  · show ((outcomesFrom loans aenv 0 plan.payments).filter (fun x => isOkE x.2)).length +
      ((outcomesFrom loans aenv 0 plan.payments).filterMap errMsg).length = plan.payments.length
    rw [errMsg_filterMap_length, filter_ok_add_filter_not]
    exact outcomesFrom_length loans aenv 0 plan.payments
  · show ((outcomesFrom loans aenv 0 plan.payments).all (fun x => isOkE x.2) = false) ↔ _
    constructor
    · intro h
      by_contra hc
      push_neg at hc
      have hall : (outcomesFrom loans aenv 0 plan.payments).all (fun x => isOkE x.2) = true := by
        rw [List.all_eq_true]
        intro x hx
        have := hc x hx
        revert this
        cases isOkE x.2 <;> simp
      rw [hall] at h
      exact Bool.noConfusion h
    · intro ⟨x, hx, hfail⟩
      by_contra hc
      have : (outcomesFrom loans aenv 0 plan.payments).all (fun x => isOkE x.2) = true := by
        revert hc
        cases (outcomesFrom loans aenv 0 plan.payments).all (fun x => isOkE x.2) <;> simp
      rw [List.all_eq_true] at this
      rw [this x hx] at hfail
      exact Bool.noConfusion hfail

/-- C4 witness is not needed (the theorem is hypothesis-free), but the cycle
environments below exercise it concretely. -/
def tradeOk : TradeResult := { success := true, cryptoReceived := 1, zarSpent := 10, price := 10 }

/-- A successful transfer outcome. -/
def transferOk : TransferResult := { success := true, transferId := some "t-1" }

/-- An action environment in which every step succeeds. -/
def aeOk : ActionEnv := { trade := tradeOk, transfer := transferOk, recordWrite := Except.ok () }

/-- A failing trade outcome. -/
def tradeFail : TradeResult :=
  { success := false, cryptoReceived := 0, zarSpent := 0, price := 0,
    tradeError := some "insufficient liquidity" }

/-- An action environment whose trade fails. -/
def aeFail : ActionEnv := { trade := tradeFail, transfer := transferOk, recordWrite := Except.ok () }

/-- A concrete priority-2 action. -/
def actW : RepaymentAction :=
  { priority := 2, type := ActionType.VALR_LOAN, loanIdentifier := "USDC", currency := "USDC",
    amountNeeded := 0, amountInZAR := 10, apr := some 12 }

/-- A concrete executable plan with one action. -/
def planX : RepaymentPlan :=
  { totalZARAvailable := 100, totalZARNeeded := 10, canExecute := true, payments := [actW] }

/-- A concrete non-executable (skip) plan. -/
def planSkip : RepaymentPlan :=
  { totalZARAvailable := 10, totalZARNeeded := 0, canExecute := false, payments := [],
    skippedReason := some (SkipReason.insufficientAfterReserve 10 50) }

/-- A cycle in which plan building itself throws (e.g. a failing ledger read). -/
def envPlanErr : CycleEnv :=
  { planResult := Except.error "SQLITE_IOERR: ledger read failed", loans := [],
    actionEnvs := fun _ => aeOk, writeSkip := Except.ok 1, writeProv := Except.ok 1,
    writeFinal := Except.ok 1 }

/-- A cycle whose plan is a skip and whose ledger writes succeed. -/
def envSkip : CycleEnv :=
  { planResult := Except.ok planSkip, loans := [], actionEnvs := fun _ => aeOk,
    writeSkip := Except.ok 1, writeProv := Except.ok 1, writeFinal := Except.ok 1 }

/-- A cycle whose provisional ledger write fails. -/
def envLedgerFail : CycleEnv :=
  { planResult := Except.ok planX, loans := [], actionEnvs := fun _ => aeOk,
    writeSkip := Except.ok 1, writeProv := Except.error "SQLITE_IOERR: disk I/O error",
    writeFinal := Except.ok 1 }

/-- The rows an invocation can persist. -/
lemma executeRepaymentCycle_rows (env : CycleEnv) :
    (executeRepaymentCycle env).2 = [] ∨
    (∃ plan, env.planResult = Except.ok plan ∧
      (executeRepaymentCycle env).2 = [skipRow plan]) ∨
    (∃ plan, env.planResult = Except.ok plan ∧
      (executeRepaymentCycle env).2 = [provRow plan]) ∨
    (∃ plan, env.planResult = Except.ok plan ∧
      (executeRepaymentCycle env).2 =
        [provRow plan, finalRow (executeRepaymentPlan env.loans env.actionEnvs plan)]) := by
  simp only [executeRepaymentCycle]
  split
  · left
    rfl
  next plan heq =>
    split
    · split
      · left
        rfl
      · right
        left
        exact ⟨plan, heq, rfl⟩
    · split
      · left
        rfl
      · split
        · right
          right
          left
          exact ⟨plan, heq, rfl⟩
        · right
          right
          right
          exact ⟨plan, heq, rfl⟩

/-- C3: a cycle invocation that persists NO execution record: when plan
building throws (the outer catch at repayment-manager.ts lines 238-247 catches
it after nothing was written), the ledger receives zero rows, refuting "at
least one Execution Record is persisted for every invocation". -/
theorem c3_counterexample :
    (executeRepaymentCycle envPlanErr).2 = [] ∧
    (executeRepaymentCycle envPlanErr).1.success = false := ⟨rfl, rfl⟩

/-- C3 (amended: persistence holds only for invocations in which plan building
does not throw and the attempted ledger writes succeed): a skipped cycle then
persists exactly the skip record — `success = true`, the skip reason as its
single error entry, zero executed — an executed cycle persists the provisional
and terminal records, and EVERY row any invocation persists satisfies
`actionsExecuted ≤ actionsPlanned`. -/
theorem executionRecord_persistence (env : CycleEnv) :
    (∀ r ∈ (executeRepaymentCycle env).2, r.actionsExecuted ≤ r.actionsPlanned) ∧
    (∀ plan, env.planResult = Except.ok plan →
      (plan.canExecute = false → isOkE env.writeSkip = true →
        (executeRepaymentCycle env).2 = [skipRow plan] ∧
        (skipRow plan).success = true ∧
        (skipRow plan).errors = [skipReasonText plan.skippedReason] ∧
        (skipRow plan).actionsExecuted = 0) ∧
      (plan.canExecute = true → isOkE env.writeProv = true → isOkE env.writeFinal = true →
        (executeRepaymentCycle env).2 =
          [provRow plan, finalRow (executeRepaymentPlan env.loans env.actionEnvs plan)])) := by
  constructor
  · intro r hr
    rcases executeRepaymentCycle_rows env with h | ⟨plan, _, h⟩ | ⟨plan, _, h⟩ | ⟨plan, _, h⟩ <;>
      rw [h] at hr
    · simp at hr
    · rw [List.mem_singleton] at hr
      rw [hr]
      exact Nat.zero_le _
    · rw [List.mem_singleton] at hr
      rw [hr]
      exact Nat.zero_le _
    · rcases List.mem_cons.1 hr with h2 | h2
      · rw [h2]
        exact Nat.zero_le _
      · rw [List.mem_singleton] at h2
        rw [h2]
        exact executeRepaymentPlan_exec_le env.loans env.actionEnvs plan
  · intro plan hpr
    constructor
    · intro hce hws
      obtain ⟨k, hk⟩ := (isOkE_true_iff env.writeSkip).1 hws
      refine ⟨?_, rfl, rfl, rfl⟩
      simp only [executeRepaymentCycle, hpr, hk, if_pos hce]
    · intro hce hwp hwf
      obtain ⟨k1, hk1⟩ := (isOkE_true_iff env.writeProv).1 hwp
      obtain ⟨k2, hk2⟩ := (isOkE_true_iff env.writeFinal).1 hwf
      have hnce : ¬ plan.canExecute = false := by simp [hce]
      simp only [executeRepaymentCycle, hpr, hk1, hk2, if_neg hnce]

/-- C3 witness: the skipped cycle persists its skip record. -/
theorem c3_witness :
    (executeRepaymentCycle envSkip).2 = [skipRow planSkip] ∧
    (skipRow planSkip).success = true := by
  have h := ((executionRecord_persistence envSkip).2 planSkip rfl).1 rfl rfl
  exact ⟨h.1, h.2.1⟩

/-- C6: a Ledger Store failure is NOT propagated to the caller of
`executeRepaymentCycle`: with the provisional `recordRepaymentExecution` write
throwing, the call RETURNS this result (the storage error caught by the outer
catch and recorded in the returned result's error list) instead of throwing. -/
theorem c6_counterexample :
    executeRepaymentCycle envLedgerFail =
      ({ success := false, actionsPlanned := 1, actionsExecuted := 0,
         errors := ["SQLITE_IOERR: disk I/O error"], totalZARSpent := 0,
         breakdown := { friendsFamilyPayments := 0, valrLoanPayments := 0 } }, []) := rfl

/-- C6 (amended: trade/transfer errors are caught per action and recorded as
strings, and a Ledger Store failure is ALSO caught — by the cycle's outer
handler — aborting the remaining work and marking the returned result failed
with the storage error recorded, rather than being rethrown to the caller):
`executeRepaymentCycle` always returns a result; action errors end up in its
error list, and a failing provisional write yields `success = false`, the
storage error as the only recorded error, nothing executed, and no rows
persisted. -/
theorem ledgerFailure_contained (env : CycleEnv) :
    (∀ plan, env.planResult = Except.ok plan → plan.canExecute = true →
      isOkE env.writeProv = true → isOkE env.writeFinal = true →
      (executeRepaymentCycle env).1.errors =
        (outcomesFrom env.loans env.actionEnvs 0 plan.payments).filterMap errMsg) ∧
    (∀ plan e, env.planResult = Except.ok plan → plan.canExecute = true →
      env.writeProv = Except.error e →
      (executeRepaymentCycle env).1.success = false ∧
      (executeRepaymentCycle env).1.errors = [e] ∧
      (executeRepaymentCycle env).1.actionsExecuted = 0 ∧
      (executeRepaymentCycle env).2 = []) := by
  constructor
  · intro plan hpr hce hwp hwf
    obtain ⟨k1, hk1⟩ := (isOkE_true_iff env.writeProv).1 hwp
    obtain ⟨k2, hk2⟩ := (isOkE_true_iff env.writeFinal).1 hwf
    have hnce : ¬ plan.canExecute = false := by simp [hce]
    simp only [executeRepaymentCycle, hpr, hk1, hk2, if_neg hnce]
    rw [executeRepaymentPlan_spec]
  · intro plan e hpr hce hwp
    have hnce : ¬ plan.canExecute = false := by simp [hce]
    simp only [executeRepaymentCycle, hpr, hwp, if_neg hnce]
    refine ⟨?_, ?_, ?_, ?_⟩ <;> first
      | rfl
      | trivial

/-- C6 witness: the concrete failing provisional write is contained. -/
theorem c6_witness :
    (executeRepaymentCycle envLedgerFail).1.success = false ∧
    (executeRepaymentCycle envLedgerFail).2 = [] := by
  have h := (ledgerFailure_contained envLedgerFail).2 planX "SQLITE_IOERR: disk I/O error"
    rfl rfl rfl
  exact ⟨h.1, h.2.2.2⟩
